import Mathlib

/-!
Verification of the BMW sales report client (`src/my-app/src/App.jsx`,
first revision, the authoritative one per the design notes).

We shallowly embed the JavaScript values flowing through the component as an
inductive `JsVal`, model property access (which throws on `null`/`undefined`)
with `Except String`, and translate each piece of the component —
`handleGenerate`'s request body and response resolution, and the four section
renderers `IngestionView`, `PandasAgentView`, `RAGAgentView`, `SynthesisView` —
into executable Lean functions over `JsVal`.
-/

/-- A JavaScript/JSON value as manipulated by the component.  Numbers are
modelled as integers (no float-specific behaviour is exercised by the code). -/
inductive JsVal where
  | null
  | undef
  | bool (b : Bool)
  | num (n : Int)
  | str (s : String)
  | arr (elems : List JsVal)
  | obj (fields : List (String × JsVal))

/-- Look up a property on a JS object's field list; missing keys give
`undefined`. -/
def objLookup (fields : List (String × JsVal)) (key : String) : JsVal :=
  match fields with
  | [] => JsVal.undef
  | (k, v) :: rest => if k = key then v else objLookup rest key

/-- JavaScript property access `v.key`: throws a `TypeError` on `null` or
`undefined`, returns `undefined` for properties of primitive values (none of
the accessed keys exist on primitive prototypes), and looks up object fields. -/
def member (v : JsVal) (key : String) : Except String JsVal :=
  match v with
  | JsVal.null => Except.error ("TypeError: Cannot read properties of null (reading " ++ key ++ ")")
  | JsVal.undef => Except.error ("TypeError: Cannot read properties of undefined (reading " ++ key ++ ")")
  | JsVal.obj fields => Except.ok (objLookup fields key)
  | _ => Except.ok JsVal.undef

/-- JavaScript optional chaining `v?.key`: `null`/`undefined` short-circuit to
`undefined` instead of throwing. -/
def optMember (v : JsVal) (key : String) : JsVal :=
  match v with
  | JsVal.null => JsVal.undef
  | JsVal.undef => JsVal.undef
  | JsVal.obj fields => objLookup fields key
  | _ => JsVal.undef

/-- JavaScript truthiness. -/
def jsTruthy (v : JsVal) : Bool :=
  match v with
  | JsVal.null => false
  | JsVal.undef => false
  | JsVal.bool b => b
  | JsVal.num n => n != 0
  | JsVal.str s => s != ""
  | JsVal.arr _ => true
  | JsVal.obj _ => true

/-- JavaScript `a || b`. -/
def jsOr (a b : JsVal) : JsVal :=
  if jsTruthy a then a else b

mutual

/-- JavaScript string coercion (`String(v)`, also used by `+` on a string). -/
def jsToString (v : JsVal) : String :=
  match v with
  | JsVal.null => "null"
  | JsVal.undef => "undefined"
  | JsVal.bool b => if b then "true" else "false"
  | JsVal.num n => toString n
  | JsVal.str s => s
  | JsVal.arr xs => String.intercalate "," (jsToStringList xs)
  | JsVal.obj _ => "[object Object]"

/-- Array element stringification for `Array.prototype.toString` (join with
commas; `null`/`undefined` elements become empty). -/
def jsToStringList (vs : List JsVal) : List String :=
  match vs with
  | [] => []
  | JsVal.null :: rest => "" :: jsToStringList rest
  | JsVal.undef :: rest => "" :: jsToStringList rest
  | v :: rest => jsToString v :: jsToStringList rest

end

/-- JavaScript whitespace for `String.prototype.trim` (the characters that can
actually occur here). -/
def isJsSpace (c : Char) : Bool :=
  (c == ' ') || (c == '\t') || (c == '\n') || (c == '\r')

/-- Model of `String.prototype.trim`. -/
def jsTrim (s : String) : String :=
  String.mk (((s.data.dropWhile isJsSpace).reverse.dropWhile isJsSpace).reverse)

/-- The `length` property read by the badge expressions: arrays and strings
have a numeric `length`, objects may carry their own `length` field, other
values give `undefined`. -/
def jsLengthProp (v : JsVal) : JsVal :=
  match v with
  | JsVal.arr xs => JsVal.num xs.length
  | JsVal.str s => JsVal.num s.length
  | JsVal.obj fields => objLookup fields "length"
  | _ => JsVal.undef

/-- Number coercion of a string for JS relational comparison (`Number(s)`):
a blank string is `0`, otherwise parse an integer, `none` meaning `NaN`. -/
def jsStrToInt (s : String) : Option Int :=
  if jsTrim s = "" then some 0 else (jsTrim s).toInt?

/-- JavaScript `v > k` for an integer literal `k`: numbers compare directly,
strings/booleans/null coerce to numbers, `undefined` (NaN) compares false. -/
def jsGtNum (v : JsVal) (k : Int) : Bool :=
  match v with
  | JsVal.num n => decide (k < n)
  | JsVal.str s =>
      match jsStrToInt s with
      | some n => decide (k < n)
      | none => false
  | JsVal.bool b => decide (k < (if b then (1 : Int) else 0))
  | JsVal.null => decide (k < 0)
  | _ => false

/-! ## Request lifecycle (`handleGenerate`, App.jsx lines 15–39) -/

/-- The four tabs of the UI. -/
inductive Tab where
  | ingestion
  | pandas
  | rag
  | synthesis

/-- The component state touched by `handleGenerate`: `activeTab`, `loading`,
`data`, `error`. -/
structure AppState where
  activeTab : Tab
  loading : Bool
  data : Option JsVal
  error : Option String

/-- Initial state (`useState` initialisers). -/
def initialState : AppState :=
  { activeTab := Tab.ingestion, loading := false, data := none, error := none }

/-- The request body built by `handleGenerate`:
`JSON.stringify({ user_instructions: instructions.trim() })`. -/
def requestBody (instructions : String) : JsVal :=
  JsVal.obj [("user_instructions", JsVal.str (jsTrim instructions))]

/-- The synchronous prefix of `handleGenerate`: `setLoading(true)`,
`setError(null)`, `setData(null)`. -/
def beginGenerate (st : AppState) : AppState :=
  { st with loading := true, error := none, data := none }

/-- Resolution of the fetch (App.jsx lines 29–38).  The transport outcome is
an `Except`: `error msg` for a network failure or non-JSON body (the thrown
error's message), `ok result` for a parsed JSON body.  Then
`if (result.error) throw new Error(result.error)` — a property access that can
itself throw — else `setData(result); setActiveTab('synthesis')`; every path
ends with `setLoading(false)`. -/
def resolveResponse (st : AppState) (resp : Except String JsVal) : AppState :=
  match resp with
  | Except.error msg => { st with error := some msg, loading := false }
  | Except.ok result =>
      match member result "error" with
      | Except.error msg => { st with error := some msg, loading := false }
      | Except.ok errField =>
          if jsTruthy errField then
            { st with error := some (jsToString errField), loading := false }
          else
            { st with data := some result, activeTab := Tab.synthesis, loading := false }

/-- One full run of `handleGenerate` from state `st` with transport outcome
`resp`. -/
def handleGenerate (st : AppState) (resp : Except String JsVal) : AppState :=
  resolveResponse (beginGenerate st) resp

/-! ## Theorems for the lifecycle claims -/

/-- Claim C1: a response that parses as JSON and carries a non-empty string
`error` field drives the lifecycle to Failed holding exactly that string as
the user-visible message, never to Succeeded, and no result model is
retained. -/
theorem C1_domain_failure (st : AppState) (result : JsVal) (s : String)
    (herr : member result "error" = Except.ok (JsVal.str s)) (hne : s ≠ "") :
    (handleGenerate st (Except.ok result)).error = some s ∧
    (handleGenerate st (Except.ok result)).data = none ∧
    (handleGenerate st (Except.ok result)).loading = false ∧
    (handleGenerate st (Except.ok result)).activeTab = st.activeTab := by
  have htr : jsTruthy (JsVal.str s) = true := by
    simp [jsTruthy, hne]
  simp [handleGenerate, resolveResponse, beginGenerate, herr, htr, jsToString]

/-- Witness for C1 at a concrete failing response. -/
theorem C1_domain_failure_witness :
    (handleGenerate initialState (Except.ok (JsVal.obj [("error", JsVal.str "boom")]))).error
        = some "boom" ∧
    (handleGenerate initialState (Except.ok (JsVal.obj [("error", JsVal.str "boom")]))).data
        = none := by
  have h := C1_domain_failure initialState (JsVal.obj [("error", JsVal.str "boom")]) "boom"
    (by simp [member, objLookup]) (by decide)
  exact ⟨h.1, h.2.1⟩

/-- Claim C2: the request body is exactly a one-field object
`{ user_instructions: trim(t) }` (the spec's `userInstructions`); the field is
always present as a string — in particular blank inputs send the empty
string, never null or an omitted field. -/
theorem C2_request_body (t : String) :
    requestBody t = JsVal.obj [("user_instructions", JsVal.str (jsTrim t))] ∧
    member (requestBody t) "user_instructions" = Except.ok (JsVal.str (jsTrim t)) ∧
    member (requestBody "") "user_instructions" = Except.ok (JsVal.str "") ∧
    member (requestBody "   ") "user_instructions" = Except.ok (JsVal.str "") := by
  refine ⟨rfl, ?_, ?_, ?_⟩
  · simp [requestBody, member, objLookup]
  · simp [requestBody, member, objLookup]
    decide
  · simp [requestBody, member, objLookup]
    decide

/-- Claim C5: a parsed JSON response whose `error` field is absent (or the
empty string, hence not a non-empty error) drives the lifecycle to Succeeded
holding the parsed result, and forces the visible tab to `synthesis`
regardless of the previous tab. -/
theorem C5_success_path (st : AppState) (result : JsVal)
    (herr : member result "error" = Except.ok JsVal.undef ∨
            member result "error" = Except.ok (JsVal.str "")) :
    (handleGenerate st (Except.ok result)).data = some result ∧
    (handleGenerate st (Except.ok result)).error = none ∧
    (handleGenerate st (Except.ok result)).activeTab = Tab.synthesis ∧
    (handleGenerate st (Except.ok result)).loading = false := by
  rcases herr with h | h <;>
    simp [handleGenerate, resolveResponse, beginGenerate, h, jsTruthy]

/-- Witness for C5 at a concrete successful response, starting from a
non-synthesis tab. -/
theorem C5_success_path_witness :
    (handleGenerate initialState (Except.ok (JsVal.obj [("synthesis", JsVal.obj [])]))).data
        = some (JsVal.obj [("synthesis", JsVal.obj [])]) ∧
    (handleGenerate initialState (Except.ok (JsVal.obj [("synthesis", JsVal.obj [])]))).activeTab
        = Tab.synthesis := by
  have h := C5_success_path initialState (JsVal.obj [("synthesis", JsVal.obj [])])
    (Or.inl (by simp [member, objLookup]))
  exact ⟨h.1, h.2.2.1⟩

/-- Claim C10: a parsed JSON response carrying an `error` field equal to the
empty string is treated as a success: the lifecycle reaches Succeeded holding
the whole parsed object, and the visible tab jumps to `synthesis`. -/
theorem C10_empty_error_succeeds (st : AppState) (result : JsVal)
    (herr : member result "error" = Except.ok (JsVal.str "")) :
    (handleGenerate st (Except.ok result)).data = some result ∧
    (handleGenerate st (Except.ok result)).error = none ∧
    (handleGenerate st (Except.ok result)).activeTab = Tab.synthesis := by
  simp [handleGenerate, resolveResponse, beginGenerate, herr, jsTruthy]

/-- Witness for C10 at a concrete response with a present-but-empty `error`
field. -/
theorem C10_empty_error_succeeds_witness :
    (handleGenerate initialState (Except.ok (JsVal.obj [("error", JsVal.str "")]))).data
        = some (JsVal.obj [("error", JsVal.str "")]) ∧
    (handleGenerate initialState (Except.ok (JsVal.obj [("error", JsVal.str "")]))).activeTab
        = Tab.synthesis := by
  have h := C10_empty_error_succeeds initialState (JsVal.obj [("error", JsVal.str "")])
    (by simp [member, objLookup])
  exact ⟨h.1, h.2.2⟩

/-! ## Ingestion view (App.jsx lines 42–66) -/

/-- What `IngestionView` renders (the observable content: the status chip, the
record count, the explicitly listed columns, and the remainder indicator). -/
structure IngestionOut where
  status : JsVal
  rowCount : JsVal
  shownColumns : Option (List JsVal)
  moreIndicator : Option String

/-- Evaluates `data?.row_count?.toLocaleString() || 0`.  `toLocaleString` exists on every
non-null value (`Object.prototype`), so this subexpression never throws; for a
number it produces the digit-grouped string (grouping itself is irrelevant to
the claims, so the plain decimal string stands in for the locale string). -/
def rowCountDisplay (data : JsVal) : JsVal :=
  match optMember data "row_count" with
  | JsVal.null => JsVal.num 0
  | JsVal.undef => JsVal.num 0
  | v => jsOr (JsVal.str (jsToString v)) (JsVal.num 0)

/-- Evaluates `data?.columns?.slice(0, 6).map(...)`: a nullish `columns` short-circuits
the whole chain to `undefined` (nothing rendered); an array is sliced to its
first 6 entries; a string has `slice` but no `map` (TypeError); any other
value has no `slice` (TypeError). -/
def ingestColumns (cols : JsVal) : Except String (Option (List JsVal)) :=
  match cols with
  | JsVal.null => Except.ok none
  | JsVal.undef => Except.ok none
  | JsVal.arr xs => Except.ok (some (xs.take 6))
  | JsVal.str _ => Except.error "TypeError: data.columns.slice(...).map is not a function"
  | _ => Except.error "TypeError: data.columns.slice is not a function"

/-- Evaluates the remainder indicator
`(data?.columns?.length > 6) && <span>+{data.columns.length - 6} more</span>`.
Only a nullish or array-valued `columns` can reach this expression (anything
else already threw in `ingestColumns`). -/
def moreColumns (cols : JsVal) : Option String :=
  if jsGtNum (jsLengthProp cols) 6 then
    match cols with
    | JsVal.arr xs => some ("+" ++ toString (xs.length - 6) ++ " more")
    | _ => none
  else none

/-- The `IngestionView` renderer (App.jsx lines 42–66). -/
def IngestionView (data : JsVal) : Except String IngestionOut := do
  let cols ← ingestColumns (optMember data "columns")
  Except.ok
    { status := jsOr (optMember data "status") (JsVal.str "Ready"),
      rowCount := rowCountDisplay data,
      shownColumns := cols,
      moreIndicator := moreColumns (optMember data "columns") }

/-! ## Pandas (quantitative) view (App.jsx lines 69–138) -/

/-- The plot area of a quantitative block: an inline data-URI image when
`item.image` is truthy, else the explicit "No visualization generated"
placeholder. -/
inductive ImageSlot where
  | shown (src : String)
  | noVisualization

/-- The optional insight block: rendered only when `item.insight` is truthy,
otherwise omitted entirely (no placeholder). -/
inductive InsightSlot where
  | shown (text : JsVal)
  | omitted

/-- One rendered block of `PandasAgentView` (per step item). -/
structure PandasBlock where
  indexBadge : Nat
  label : JsVal
  query : JsVal
  code : JsVal
  image : ImageSlot
  insight : InsightSlot

/-- Output of `PandasAgentView`: the emptiness placeholder or the step blocks. -/
inductive PandasView where
  | placeholder
  | steps (blocks : List PandasBlock)

/-- One iteration of `data.map((item, index) => ...)` in `PandasAgentView`
(App.jsx lines 77–134): plain property accesses on `item` (throwing on
nullish items), `item.section || "Analysis Step " + (index+1)` label,
`item.code || "# No code generated"`, ternary on `item.image`, and
`item.insight && ...`. -/
def pandasBlock (index : Nat) (item : JsVal) : Except String PandasBlock := do
  let sec ← member item "section"
  let q ← member item "query"
  let c ← member item "code"
  let img ← member item "image"
  let ins ← member item "insight"
  Except.ok
    { indexBadge := index + 1,
      label := jsOr sec (JsVal.str ("Analysis Step " ++ toString (index + 1))),
      query := q,
      code := jsOr c (JsVal.str "# No code generated"),
      image := if jsTruthy img then
                 ImageSlot.shown ("data:image/png;base64," ++ jsToString img)
               else ImageSlot.noVisualization,
      insight := if jsTruthy ins then InsightSlot.shown ins else InsightSlot.omitted }

/-- Evaluate the mapped blocks from position `index` onwards; a throwing item
aborts the whole render, as in React. -/
def pandasBlocksFrom (index : Nat) (items : List JsVal) : Except String (List PandasBlock) :=
  match items with
  | [] => Except.ok []
  | item :: rest => do
      let b ← pandasBlock index item
      let bs ← pandasBlocksFrom (index + 1) rest
      Except.ok (b :: bs)

/-- The `PandasAgentView` renderer (App.jsx lines 69–138): the guard
`!data || !Array.isArray(data) || data.length === 0` renders the placeholder
exactly when `data` is not a non-empty array. -/
def PandasAgentView (data : JsVal) : Except String PandasView :=
  match data with
  | JsVal.arr (item :: rest) => Except.map PandasView.steps (pandasBlocksFrom 0 (item :: rest))
  | _ => Except.ok PandasView.placeholder

/-! ## RAG (qualitative) view (App.jsx lines 141–184) -/

/-- One rendered block of `RAGAgentView` (per step item). -/
structure RagBlock where
  indexBadge : Nat
  label : JsVal
  query : JsVal
  context : JsVal
  insight : InsightSlot

/-- Output of `RAGAgentView`. -/
inductive RagView where
  | placeholder
  | steps (blocks : List RagBlock)

/-- One iteration of `data.map((item, index) => ...)` in `RAGAgentView`
(App.jsx lines 148–180): `item.section || "Research Step " + (index+1)` label,
`item.context || "No context found."`, and `item.insight && ...`. -/
def ragBlock (index : Nat) (item : JsVal) : Except String RagBlock := do
  let sec ← member item "section"
  let q ← member item "query"
  let ctx ← member item "context"
  let ins ← member item "insight"
  Except.ok
    { indexBadge := index + 1,
      label := jsOr sec (JsVal.str ("Research Step " ++ toString (index + 1))),
      query := q,
      context := jsOr ctx (JsVal.str "No context found."),
      insight := if jsTruthy ins then InsightSlot.shown ins else InsightSlot.omitted }

/-- Evaluate the mapped research blocks from position `index` onwards. -/
def ragBlocksFrom (index : Nat) (items : List JsVal) : Except String (List RagBlock) :=
  match items with
  | [] => Except.ok []
  | item :: rest => do
      let b ← ragBlock index item
      let bs ← ragBlocksFrom (index + 1) rest
      Except.ok (b :: bs)

/-- The `RAGAgentView` renderer (App.jsx lines 141–184), same emptiness guard as the
quantitative view. -/
def RAGAgentView (data : JsVal) : Except String RagView :=
  match data with
  | JsVal.arr (item :: rest) => Except.map RagView.steps (ragBlocksFrom 0 (item :: rest))
  | _ => Except.ok RagView.placeholder

/-! ## Tab badges (App.jsx lines 276–281) -/

/-- Evaluates `data?.pandas_agent?.length > 0 && <span>{data.pandas_agent.length}</span>`:
the badge (holding the displayed length value) or nothing. -/
def pandasBadge (data : JsVal) : Option JsVal :=
  if jsGtNum (jsLengthProp (optMember data "pandas_agent")) 0 then
    some (jsLengthProp (optMember data "pandas_agent"))
  else none

/-- Evaluates `data?.rag_agent?.length > 0 && <span>{data.rag_agent.length}</span>`. -/
def ragBadge (data : JsVal) : Option JsVal :=
  if jsGtNum (jsLengthProp (optMember data "rag_agent")) 0 then
    some (jsLengthProp (optMember data "rag_agent"))
  else none

/-! ## Helper lemmas -/

@[simp] theorem jsExceptPure (a : α) : (pure a : Except String α) = Except.ok a := rfl

@[simp] theorem jsExceptBindOk (a : α) (f : α → Except String β) :
    (Except.ok a >>= f : Except String β) = f a := rfl

@[simp] theorem jsExceptBindErr (e : String) (f : α → Except String β) :
    (Except.error e >>= f : Except String β) = Except.error e := rfl

@[simp] theorem jsExceptMapOk (f : α → β) (a : α) :
    (Except.map f (Except.ok a) : Except String β) = Except.ok (f a) := rfl

@[simp] theorem jsExceptMapErr (f : α → β) (e : String) :
    (Except.map f (Except.error e) : Except String β) = Except.error e := rfl

/-- Evaluation of a quantitative block on an object item (never throws). -/
theorem pandasBlock_obj (k : Nat) (gs : List (String × JsVal)) :
    pandasBlock k (JsVal.obj gs) = Except.ok
      { indexBadge := k + 1,
        label := jsOr (objLookup gs "section")
          (JsVal.str ("Analysis Step " ++ toString (k + 1))),
        query := objLookup gs "query",
        code := jsOr (objLookup gs "code") (JsVal.str "# No code generated"),
        image := if jsTruthy (objLookup gs "image") then
            ImageSlot.shown ("data:image/png;base64," ++ jsToString (objLookup gs "image"))
          else ImageSlot.noVisualization,
        insight := if jsTruthy (objLookup gs "insight") then
            InsightSlot.shown (objLookup gs "insight")
          else InsightSlot.omitted } := rfl

/-- Evaluation of a qualitative block on an object item (never throws). -/
theorem ragBlock_obj (k : Nat) (gs : List (String × JsVal)) :
    ragBlock k (JsVal.obj gs) = Except.ok
      { indexBadge := k + 1,
        label := jsOr (objLookup gs "section")
          (JsVal.str ("Research Step " ++ toString (k + 1))),
        query := objLookup gs "query",
        context := jsOr (objLookup gs "context") (JsVal.str "No context found."),
        insight := if jsTruthy (objLookup gs "insight") then
            InsightSlot.shown (objLookup gs "insight")
          else InsightSlot.omitted } := rfl

/-- Any successfully rendered quantitative block displays `index + 1`. -/
theorem pandasBlock_ok_indexBadge (k : Nat) (item : JsVal) (b : PandasBlock)
    (h : pandasBlock k item = Except.ok b) : b.indexBadge = k + 1 := by
  cases item <;> simp [pandasBlock, member] at h <;> simp [← h]

/-- A quantitative block built from an object with no `section` field falls
back to the numbered label. -/
theorem pandasBlock_label_default (k : Nat) (gs : List (String × JsVal)) (b : PandasBlock)
    (h : pandasBlock k (JsVal.obj gs) = Except.ok b)
    (hs : objLookup gs "section" = JsVal.undef) :
    b.label = JsVal.str ("Analysis Step " ++ toString (k + 1)) := by
  rw [pandasBlock_obj] at h
  cases h
  simp [hs, jsOr, jsTruthy]

/-- Any successfully rendered qualitative block displays `index + 1`. -/
theorem ragBlock_ok_indexBadge (k : Nat) (item : JsVal) (b : RagBlock)
    (h : ragBlock k item = Except.ok b) : b.indexBadge = k + 1 := by
  cases item <;> simp [ragBlock, member] at h <;> simp [← h]

/-- A qualitative block built from an object with no `section` field falls
back to the numbered label. -/
theorem ragBlock_label_default (k : Nat) (gs : List (String × JsVal)) (b : RagBlock)
    (h : ragBlock k (JsVal.obj gs) = Except.ok b)
    (hs : objLookup gs "section" = JsVal.undef) :
    b.label = JsVal.str ("Research Step " ++ toString (k + 1)) := by
  rw [ragBlock_obj] at h
  cases h
  simp [hs, jsOr, jsTruthy]

/-- Shape of a successful quantitative render: one block per step, in order,
with 1-indexed badges and the numbered fallback label. -/
theorem pandasBlocksFrom_spec (xs : List JsVal) :
    ∀ k bs, pandasBlocksFrom k xs = Except.ok bs →
      bs.length = xs.length ∧
      ∀ j b, bs[j]? = some b →
        b.indexBadge = k + j + 1 ∧
        ∀ gs, xs[j]? = some (JsVal.obj gs) → objLookup gs "section" = JsVal.undef →
          b.label = JsVal.str ("Analysis Step " ++ toString (k + j + 1)) := by
  induction xs with
  | nil =>
      intro k bs h
      simp [pandasBlocksFrom] at h
      subst h
      simp
  | cons item rest ih =>
      intro k bs h
      rw [pandasBlocksFrom] at h
      cases hpb : pandasBlock k item with
      | error e => simp [hpb] at h
      | ok b0 =>
          cases hrest : pandasBlocksFrom (k + 1) rest with
          | error e => simp [hpb, hrest] at h
          | ok bs' =>
              simp [hpb, hrest] at h
              obtain ⟨hlen, hspec⟩ := ih (k + 1) bs' hrest
              subst h
              refine ⟨by simp [hlen], ?_⟩
              intro j b hj
              cases j with
              | zero =>
                  simp at hj
                  subst hj
                  refine ⟨pandasBlock_ok_indexBadge k item b0 hpb, ?_⟩
                  intro gs hgs hsec
                  simp at hgs
                  subst hgs
                  exact pandasBlock_label_default k gs b0 hpb hsec
              | succ j' =>
                  simp at hj
                  obtain ⟨hbadge, hlabel⟩ := hspec j' b hj
                  constructor
                  · omega
                  · intro gs hgs hsec
                    simp at hgs
                    have := hlabel gs hgs hsec
                    have harith : k + 1 + j' + 1 = k + (j' + 1) + 1 := by omega
                    rw [harith] at this
                    exact this

/-- Shape of a successful qualitative render. -/
theorem ragBlocksFrom_spec (xs : List JsVal) :
    ∀ k bs, ragBlocksFrom k xs = Except.ok bs →
      bs.length = xs.length ∧
      ∀ j b, bs[j]? = some b →
        b.indexBadge = k + j + 1 ∧
        ∀ gs, xs[j]? = some (JsVal.obj gs) → objLookup gs "section" = JsVal.undef →
          b.label = JsVal.str ("Research Step " ++ toString (k + j + 1)) := by
  induction xs with
  | nil =>
      intro k bs h
      simp [ragBlocksFrom] at h
      subst h
      simp
  | cons item rest ih =>
      intro k bs h
      rw [ragBlocksFrom] at h
      cases hpb : ragBlock k item with
      | error e => simp [hpb] at h
      | ok b0 =>
          cases hrest : ragBlocksFrom (k + 1) rest with
          | error e => simp [hpb, hrest] at h
          | ok bs' =>
              simp [hpb, hrest] at h
              obtain ⟨hlen, hspec⟩ := ih (k + 1) bs' hrest
              subst h
              refine ⟨by simp [hlen], ?_⟩
              intro j b hj
              cases j with
              | zero =>
                  simp at hj
                  subst hj
                  refine ⟨ragBlock_ok_indexBadge k item b0 hpb, ?_⟩
                  intro gs hgs hsec
                  simp at hgs
                  subst hgs
                  exact ragBlock_label_default k gs b0 hpb hsec
              | succ j' =>
                  simp at hj
                  obtain ⟨hbadge, hlabel⟩ := hspec j' b hj
                  constructor
                  · omega
                  · intro gs hgs hsec
                    simp at hgs
                    have := hlabel gs hgs hsec
                    have harith : k + 1 + j' + 1 = k + (j' + 1) + 1 := by omega
                    rw [harith] at this
                    exact this

/-! ## Theorems for the rendering claims -/

/-- Claim C9: the ingestion view renders at most the first 6 `columns`
entries; with more than 6 it adds a remainder indicator reading
"+(total − 6) more", and with 6 or fewer no indicator appears. -/
theorem C9_columns_truncation (fs : List (String × JsVal)) (cols : List JsVal)
    (hc : objLookup fs "columns" = JsVal.arr cols) :
    ∃ out, IngestionView (JsVal.obj fs) = Except.ok out ∧
      out.shownColumns = some (cols.take 6) ∧
      out.moreIndicator =
        (if 6 < cols.length then some ("+" ++ toString (cols.length - 6) ++ " more")
         else none) := by
  have h1 : IngestionView (JsVal.obj fs) = Except.ok
      { status := jsOr (objLookup fs "status") (JsVal.str "Ready"),
        rowCount := rowCountDisplay (JsVal.obj fs),
        shownColumns := some (cols.take 6),
        moreIndicator := moreColumns (JsVal.arr cols) } := by
    simp [IngestionView, optMember, hc, ingestColumns]
  refine ⟨_, h1, rfl, ?_⟩
  by_cases hcond : 6 < cols.length
  · have hInt : (6 : Int) < (cols.length : Int) := by exact_mod_cast hcond
    simp [moreColumns, jsLengthProp, jsGtNum, hInt, hcond]
  · have hInt : ¬ (6 : Int) < (cols.length : Int) := by exact_mod_cast hcond
    simp [moreColumns, jsLengthProp, jsGtNum, hInt, hcond]

/-- Witness for C9: 9 columns render exactly the first 6 plus "+3 more". -/
theorem C9_columns_truncation_witness :
    ∃ out, IngestionView (JsVal.obj [("columns", JsVal.arr
        [JsVal.str "a", JsVal.str "b", JsVal.str "c", JsVal.str "d", JsVal.str "e",
         JsVal.str "f", JsVal.str "g", JsVal.str "h", JsVal.str "i"])]) = Except.ok out ∧
      out.shownColumns = some
        [JsVal.str "a", JsVal.str "b", JsVal.str "c", JsVal.str "d", JsVal.str "e",
         JsVal.str "f"] ∧
      out.moreIndicator = some "+3 more" := by
  obtain ⟨out, h1, h2, h3⟩ := C9_columns_truncation
    [("columns", JsVal.arr
        [JsVal.str "a", JsVal.str "b", JsVal.str "c", JsVal.str "d", JsVal.str "e",
         JsVal.str "f", JsVal.str "g", JsVal.str "h", JsVal.str "i"])]
    [JsVal.str "a", JsVal.str "b", JsVal.str "c", JsVal.str "d", JsVal.str "e",
     JsVal.str "f", JsVal.str "g", JsVal.str "h", JsVal.str "i"] rfl
  refine ⟨out, h1, ?_, ?_⟩
  · exact h2.trans rfl
  · refine h3.trans ?_
    decide

/-- Claim C6 (counterexample): a `pandas_agent` value that is NOT an array —
the string "abc" — still produces a badge (showing 3) even though the view
renders the no-analysis placeholder, contradicting "not an array … shows no
badge". -/
theorem C6_counterexample :
    pandasBadge (JsVal.obj [("pandas_agent", JsVal.str "abc")]) = some (JsVal.num 3) ∧
    PandasAgentView (JsVal.str "abc") = Except.ok PandasView.placeholder := by
  constructor <;> rfl

/-- Claim C6 (amended): when the step sequence is absent the view gets
`undefined` (placeholder) and no badge is shown; when it is an array, the
badge appears exactly when the array is non-empty and then shows its length,
and the empty array renders the placeholder.  (A non-array value with a
positive `length` — e.g. a string — renders the placeholder yet still shows a
badge, which is what the counterexample exhibits.) -/
theorem C6_badges_amended (fs : List (String × JsVal)) :
    (objLookup fs "pandas_agent" = JsVal.undef →
        pandasBadge (JsVal.obj fs) = none ∧
        PandasAgentView JsVal.undef = Except.ok PandasView.placeholder) ∧
    (∀ xs, objLookup fs "pandas_agent" = JsVal.arr xs →
        pandasBadge (JsVal.obj fs) =
          (if 0 < xs.length then some (JsVal.num xs.length) else none) ∧
        (xs = [] → PandasAgentView (JsVal.arr xs) = Except.ok PandasView.placeholder)) ∧
    (objLookup fs "rag_agent" = JsVal.undef →
        ragBadge (JsVal.obj fs) = none ∧
        RAGAgentView JsVal.undef = Except.ok RagView.placeholder) ∧
    (∀ xs, objLookup fs "rag_agent" = JsVal.arr xs →
        ragBadge (JsVal.obj fs) =
          (if 0 < xs.length then some (JsVal.num xs.length) else none) ∧
        (xs = [] → RAGAgentView (JsVal.arr xs) = Except.ok RagView.placeholder)) := by
  refine ⟨?_, ?_, ?_, ?_⟩
  · intro h
    refine ⟨?_, rfl⟩
    simp [pandasBadge, optMember, h, jsLengthProp, jsGtNum]
  · intro xs h
    constructor
    · by_cases hcond : 0 < xs.length
      · have hInt : (0 : Int) < (xs.length : Int) := by exact_mod_cast hcond
        simp [pandasBadge, optMember, h, jsLengthProp, jsGtNum, hInt, hcond]
      · have hInt : ¬ (0 : Int) < (xs.length : Int) := by exact_mod_cast hcond
        simp [pandasBadge, optMember, h, jsLengthProp, jsGtNum, hInt, hcond]
    · intro hxs
      subst hxs
      rfl
  · intro h
    refine ⟨?_, rfl⟩
    simp [ragBadge, optMember, h, jsLengthProp, jsGtNum]
  · intro xs h
    constructor
    · by_cases hcond : 0 < xs.length
      · have hInt : (0 : Int) < (xs.length : Int) := by exact_mod_cast hcond
        simp [ragBadge, optMember, h, jsLengthProp, jsGtNum, hInt, hcond]
      · have hInt : ¬ (0 : Int) < (xs.length : Int) := by exact_mod_cast hcond
        simp [ragBadge, optMember, h, jsLengthProp, jsGtNum, hInt, hcond]
    · intro hxs
      subst hxs
      rfl

/-- Witness for C6 (amended): one step in `pandas_agent` shows badge 1;
an empty `rag_agent` array shows no badge and the placeholder. -/
theorem C6_badges_amended_witness :
    pandasBadge (JsVal.obj [("pandas_agent", JsVal.arr [JsVal.obj []]),
        ("rag_agent", JsVal.arr [])]) = some (JsVal.num 1) ∧
    ragBadge (JsVal.obj [("pandas_agent", JsVal.arr [JsVal.obj []]),
        ("rag_agent", JsVal.arr [])]) = none ∧
    RAGAgentView (JsVal.arr []) = Except.ok RagView.placeholder := by
  have h := C6_badges_amended
    [("pandas_agent", JsVal.arr [JsVal.obj []]), ("rag_agent", JsVal.arr [])]
  obtain ⟨hp, _⟩ := h.2.1 [JsVal.obj []] rfl
  obtain ⟨hr, hrv⟩ := h.2.2.2 [] rfl
  refine ⟨?_, ?_, hrv rfl⟩
  · exact hp.trans rfl
  · exact hr.trans rfl

/-- Claim C7: for a rendered step item, an absent `code` (quantitative) or
`context` (qualitative) field is flagged with its explicit placeholder, an
absent `image` yields the no-visualization placeholder, while an absent
`insight` silently omits the block — and a present non-empty `insight` renders
it. -/
theorem C7_field_fallbacks (index : Nat) (fs : List (String × JsVal)) :
    (objLookup fs "code" = JsVal.undef →
       ∃ b, pandasBlock index (JsVal.obj fs) = Except.ok b ∧
         b.code = JsVal.str "# No code generated") ∧
    (objLookup fs "image" = JsVal.undef →
       ∃ b, pandasBlock index (JsVal.obj fs) = Except.ok b ∧
         b.image = ImageSlot.noVisualization) ∧
    (objLookup fs "insight" = JsVal.undef →
       (∃ b, pandasBlock index (JsVal.obj fs) = Except.ok b ∧
         b.insight = InsightSlot.omitted) ∧
       (∃ c, ragBlock index (JsVal.obj fs) = Except.ok c ∧
         c.insight = InsightSlot.omitted)) ∧
    (∀ s, s ≠ "" → objLookup fs "insight" = JsVal.str s →
       ∃ b, pandasBlock index (JsVal.obj fs) = Except.ok b ∧
         b.insight = InsightSlot.shown (JsVal.str s)) ∧
    (objLookup fs "context" = JsVal.undef →
       ∃ c, ragBlock index (JsVal.obj fs) = Except.ok c ∧
         c.context = JsVal.str "No context found.") := by
  refine ⟨?_, ?_, ?_, ?_, ?_⟩
  · intro h
    exact ⟨_, pandasBlock_obj index fs, by simp [h, jsOr, jsTruthy]⟩
  · intro h
    exact ⟨_, pandasBlock_obj index fs, by simp [h, jsTruthy]⟩
  · intro h
    exact ⟨⟨_, pandasBlock_obj index fs, by simp [h, jsTruthy]⟩,
           ⟨_, ragBlock_obj index fs, by simp [h, jsTruthy]⟩⟩
  · intro s hs h
    exact ⟨_, pandasBlock_obj index fs, by simp [h, jsTruthy, hs]⟩
  · intro h
    exact ⟨_, ragBlock_obj index fs, by simp [h, jsOr, jsTruthy]⟩

/-- Witness for C7: a step with only `query` gets all three placeholders and
no insight block; a step with a non-empty `insight` renders it. -/
theorem C7_field_fallbacks_witness :
    (∃ b, pandasBlock 0 (JsVal.obj [("query", JsVal.str "q")]) = Except.ok b ∧
       b.code = JsVal.str "# No code generated" ∧
       b.image = ImageSlot.noVisualization ∧
       b.insight = InsightSlot.omitted) ∧
    (∃ c, ragBlock 0 (JsVal.obj [("query", JsVal.str "q")]) = Except.ok c ∧
       c.context = JsVal.str "No context found." ∧
       c.insight = InsightSlot.omitted) ∧
    (∃ b, pandasBlock 0 (JsVal.obj [("insight", JsVal.str "found it")]) = Except.ok b ∧
       b.insight = InsightSlot.shown (JsVal.str "found it")) := by
  have h := C7_field_fallbacks 0 [("query", JsVal.str "q")]
  obtain ⟨b1, e1, hcode⟩ := h.1 rfl
  obtain ⟨b2, e2, himg⟩ := h.2.1 rfl
  obtain ⟨⟨b3, e3, hins⟩, ⟨c1, f1, hcins⟩⟩ := h.2.2.1 rfl
  obtain ⟨c2, f2, hctx⟩ := h.2.2.2.2 rfl
  obtain ⟨b4, e4, hshown⟩ :=
    (C7_field_fallbacks 0 [("insight", JsVal.str "found it")]).2.2.2.1 "found it"
      (by decide) rfl
  have hb12 : b1 = b2 := by
    rw [e1] at e2
    exact (Except.ok.inj e2)
  have hb13 : b1 = b3 := by
    rw [e1] at e3
    exact (Except.ok.inj e3)
  have hc12 : c1 = c2 := by
    rw [f1] at f2
    exact (Except.ok.inj f2)
  refine ⟨⟨b1, e1, hcode, ?_, ?_⟩, ⟨c1, f1, ?_, hcins⟩, ⟨b4, e4, hshown⟩⟩
  · rw [hb12]
    exact himg
  · rw [hb13]
    exact hins
  · rw [hc12]
    exact hctx

/-- Claim C8: a successful non-empty render yields one block per step in
sequence order, displaying 1-based indices; a step whose `section` is absent
at 0-based index j is labelled "Analysis Step (j+1)" in the quantitative view
and "Research Step (j+1)" in the qualitative view. -/
theorem C8_step_order_labels (xs : List JsVal) :
    (∀ bs, PandasAgentView (JsVal.arr xs) = Except.ok (PandasView.steps bs) →
        bs.length = xs.length ∧
        ∀ j b, bs[j]? = some b →
          b.indexBadge = j + 1 ∧
          ∀ gs, xs[j]? = some (JsVal.obj gs) → objLookup gs "section" = JsVal.undef →
            b.label = JsVal.str ("Analysis Step " ++ toString (j + 1))) ∧
    (∀ cs, RAGAgentView (JsVal.arr xs) = Except.ok (RagView.steps cs) →
        cs.length = xs.length ∧
        ∀ j c, cs[j]? = some c →
          c.indexBadge = j + 1 ∧
          ∀ gs, xs[j]? = some (JsVal.obj gs) → objLookup gs "section" = JsVal.undef →
            c.label = JsVal.str ("Research Step " ++ toString (j + 1))) := by
  constructor
  · intro bs h
    match xs, h with
    | [], h => simp [PandasAgentView] at h
    | item :: rest, h =>
        rw [PandasAgentView] at h
        cases hbf : pandasBlocksFrom 0 (item :: rest) with
        | error e => rw [hbf] at h; simp at h
        | ok bs' =>
            rw [hbf] at h
            simp at h
            subst h
            have := pandasBlocksFrom_spec (item :: rest) 0 bs' hbf
            simpa using this
  · intro cs h
    match xs, h with
    | [], h => simp [RAGAgentView] at h
    | item :: rest, h =>
        rw [RAGAgentView] at h
        cases hbf : ragBlocksFrom 0 (item :: rest) with
        | error e => rw [hbf] at h; simp at h
        | ok cs' =>
            rw [hbf] at h
            simp at h
            subst h
            have := ragBlocksFrom_spec (item :: rest) 0 cs' hbf
            simpa using this

/-- Witness for C8: three bare-object steps; the block at 0-based index 2 is
badge 3 and labelled exactly "Analysis Step 3" / "Research Step 3". -/
theorem C8_step_order_labels_witness :
    ∃ bs cs,
      PandasAgentView (JsVal.arr [JsVal.obj [], JsVal.obj [], JsVal.obj []])
          = Except.ok (PandasView.steps bs) ∧
      RAGAgentView (JsVal.arr [JsVal.obj [], JsVal.obj [], JsVal.obj []])
          = Except.ok (RagView.steps cs) ∧
      bs.length = 3 ∧ cs.length = 3 ∧
      (∃ b, bs[2]? = some b ∧ b.indexBadge = 3 ∧
        b.label = JsVal.str "Analysis Step 3") ∧
      (∃ c, cs[2]? = some c ∧ c.indexBadge = 3 ∧
        c.label = JsVal.str "Research Step 3") := by
  obtain ⟨bs, hbs⟩ : ∃ bs,
      PandasAgentView (JsVal.arr [JsVal.obj [], JsVal.obj [], JsVal.obj []])
        = Except.ok (PandasView.steps bs) := ⟨_, rfl⟩
  obtain ⟨cs, hcs⟩ : ∃ cs,
      RAGAgentView (JsVal.arr [JsVal.obj [], JsVal.obj [], JsVal.obj []])
        = Except.ok (RagView.steps cs) := ⟨_, rfl⟩
  have hp := (C8_step_order_labels [JsVal.obj [], JsVal.obj [], JsVal.obj []]).1 bs hbs
  have hr := (C8_step_order_labels [JsVal.obj [], JsVal.obj [], JsVal.obj []]).2 cs hcs
  have hblen : bs.length = 3 := by simpa using hp.1
  have hclen : cs.length = 3 := by simpa using hr.1
  obtain ⟨b2, hb2⟩ : ∃ b, bs[2]? = some b := by
    rw [List.getElem?_eq_getElem (by omega)]
    exact ⟨_, rfl⟩
  obtain ⟨c2, hc2⟩ : ∃ c, cs[2]? = some c := by
    rw [List.getElem?_eq_getElem (by omega)]
    exact ⟨_, rfl⟩
  obtain ⟨hbadge, hlabel⟩ := hp.2 2 _ hb2
  obtain ⟨hcbadge, hclabel⟩ := hr.2 2 _ hc2
  refine ⟨bs, cs, hbs, hcs, hblen, hclen, ⟨_, hb2, hbadge, ?_⟩, ⟨_, hc2, hcbadge, ?_⟩⟩
  · have := hlabel [] rfl rfl
    rw [this]
    have hstr : ("Analysis Step " ++ toString (2 + 1) : String) = "Analysis Step 3" := by decide
    rw [hstr]
  · have := hclabel [] rfl rfl
    rw [this]
    have hstr : ("Research Step " ++ toString (2 + 1) : String) = "Research Step 3" := by decide
    rw [hstr]

/-! ## Synthesis view (App.jsx lines 187–208) and the image-stripping regex

`fullMarkdown.replace(/!\[.*?\]\(.*?\)/g, "")` is modelled by a left-to-right
scanner.  A match starts at `![`; the lazy `.*?\](` finds the first `](` with
no LineTerminator before it (the ECMAScript `.` refuses every LineTerminator:
newline, carriage return, U+2028, U+2029); the lazy `.*?)` then finds the
first `)` with no LineTerminator before it.  If the first `](` has no `)`
ahead of it, no later `](` can have one either, so no backtracking case is
lost.  On a failed match the scan advances one character, as the global regex
does. -/

/-- The ECMAScript LineTerminator set, which the regex `.` cannot match. -/
def isLineTerminator (c : Char) : Bool :=
  (c == '\n') || (c == '\r') || (c == '\u2028') || (c == '\u2029')

/-- After `](`: find the first `)` reachable without crossing a
LineTerminator, returning the remainder after the match. -/
def findClose (cs : List Char) : Option (List Char) :=
  match cs with
  | [] => none
  | c :: rest =>
      if c = ')' then some rest
      else if isLineTerminator c then none
      else findClose rest

/-- After `![`: consume the lazy alt text up to `](` (no LineTerminator), then
the lazy source up to `)` (no LineTerminator); `some` holds the text after the
whole directive. -/
def imgMatch (cs : List Char) : Option (List Char) :=
  match cs with
  | [] => none
  | c :: rest =>
      if isLineTerminator c then none
      else if c = ']' ∧ rest.head? = some '(' then findClose rest.tail
      else imgMatch rest

/-- The global replace: at `![` try a match (dropping it on success), else copy
one character and continue.  `fuel` only forces termination; any
`fuel ≥ cs.length` computes the true result. -/
def stripFuel (fuel : Nat) (cs : List Char) : List Char :=
  match fuel, cs with
  | _, [] => []
  | 0, cs => cs
  | fuel + 1, c :: rest =>
      if c = '!' ∧ rest.head? = some '[' then
        match imgMatch rest.tail with
        | some r => stripFuel fuel r
        | none => c :: stripFuel fuel rest
      else c :: stripFuel fuel rest

/-- Evaluates `s.replace(/!\[.*?\]\(.*?\)/g, "")`. -/
def stripImages (s : String) : String :=
  String.mk (stripFuel s.data.length s.data)

/-- The fixed report header composed in `SynthesisView` (title plus provenance
line). -/
def reportHeader : String :=
  "# BMW Global Sales Analysis Report (2020-2024)\n> Generated by AI Multi-Agent System\n\n---\n\n"

/-- The `SynthesisView` renderer (App.jsx lines 187–208): the exact text handed to the
markdown rendering collaborator —
`(reportHeader + (data?.markdown_content || "*Report generation pending...*")).replace(/!\[.*?\]\(.*?\)/g, "")`.
String `+` coerces a non-string content value via `jsToString`.  This renderer
is a total function: it never throws. -/
def SynthesisView (data : JsVal) : String :=
  stripImages (reportHeader ++
    jsToString (jsOr (optMember data "markdown_content")
                     (JsVal.str "*Report generation pending...*")))

/-! ## Lemmas about the stripping scanner -/

/-- Text that nowhere contains the two-character directive opener `![`
(exclamation marks on their own are fine). -/
def noImgStart (cs : List Char) : Bool :=
  match cs with
  | [] => true
  | c :: rest =>
      if c = '!' ∧ rest.head? = some '[' then false
      else noImgStart rest

/-- Unfolding of `noImgStart` on a cons. -/
theorem noImgStart_cons (c : Char) (l : List Char) (h : noImgStart (c :: l) = true) :
    ¬(c = '!' ∧ l.head? = some '[') ∧ noImgStart l = true := by
  rw [noImgStart] at h
  by_cases hc : c = '!' ∧ l.head? = some '['
  · rw [if_pos hc] at h
    exact absurd h (by simp)
  · rw [if_neg hc] at h
    exact ⟨hc, h⟩

/-- Lemma: `findClose` jumps over a source without `)` or LineTerminator. -/
theorem findClose_clean (url post : List Char)
    (h : ∀ c ∈ url, c ≠ ')' ∧ isLineTerminator c = false) :
    findClose (url ++ ')' :: post) = some post := by
  induction url with
  | nil => simp [findClose]
  | cons c rest ih =>
      obtain ⟨h1, h2⟩ := h c (by simp)
      rw [List.cons_append, findClose]
      simp [h1, h2]
      exact ih (fun x hx => h x (by simp [hx]))

/-- Lemma: `imgMatch` consumes a well-formed directive body exactly. -/
theorem imgMatch_clean (alt url post : List Char)
    (ha : ∀ c ∈ alt, c ≠ ']' ∧ isLineTerminator c = false)
    (hu : ∀ c ∈ url, c ≠ ')' ∧ isLineTerminator c = false) :
    imgMatch (alt ++ ']' :: '(' :: (url ++ ')' :: post)) = some post := by
  induction alt with
  | nil =>
      rw [List.nil_append, imgMatch]
      simp [isLineTerminator]
      exact findClose_clean url post hu
  | cons c rest ih =>
      obtain ⟨h1, h2⟩ := ha c (by simp)
      rw [List.cons_append, imgMatch]
      simp [h1, h2]
      exact ih (fun x hx => ha x (by simp [hx]))

/-- Text without a `![` opener passes through the replace unchanged. -/
theorem stripFuel_noImgStart (cs : List Char) :
    ∀ fuel, cs.length ≤ fuel → noImgStart cs = true →
    stripFuel fuel cs = cs := by
  induction cs with
  | nil =>
      intro fuel _ _
      cases fuel <;> rfl
  | cons c rest ih =>
      intro fuel hlen h
      obtain ⟨hcond, hrest⟩ := noImgStart_cons c rest h
      cases fuel with
      | zero => simp at hlen
      | succ f =>
          rw [stripFuel, if_neg hcond]
          rw [ih f (by simp at hlen; omega) hrest]

/-- The replace walks over an opener-free segment, spending one unit of fuel
per character; the segment may end in `!` as long as the following text does
not begin with `[`. -/
theorem stripFuel_append_noImgStart (seg : List Char) :
    ∀ fuel rest, (seg ++ rest).length ≤ fuel → noImgStart seg = true →
    (seg.getLast? = some '!' → rest.head? ≠ some '[') →
    stripFuel fuel (seg ++ rest) = seg ++ stripFuel (fuel - seg.length) rest := by
  induction seg with
  | nil =>
      intro fuel rest _ _ _
      simp
  | cons c seg2 ih =>
      intro fuel rest hlen hno hbound
      obtain ⟨hcond2, hno2⟩ := noImgStart_cons c seg2 hno
      cases fuel with
      | zero => simp at hlen
      | succ f =>
          have hcond : ¬(c = '!' ∧ (seg2 ++ rest).head? = some '[') := by
            cases seg2 with
            | nil =>
                rintro ⟨hc, hh⟩
                simp at hh
                exact hbound (by simp [hc]) hh
            | cons d seg3 =>
                rintro ⟨hc, hh⟩
                simp at hh
                exact hcond2 ⟨hc, by simp [hh]⟩
          have hbound2 : seg2.getLast? = some '!' → rest.head? ≠ some '[' := by
            intro hlast
            cases seg2 with
            | nil => simp at hlast
            | cons d seg3 =>
                exact hbound (by rw [List.getLast?_cons_cons]; exact hlast)
          rw [List.cons_append, stripFuel, if_neg hcond]
          rw [ih f rest (by simp at hlen ⊢; omega) hno2 hbound2]
          simp

/-- A well-formed directive at the head of the text is removed whole, costing
one unit of fuel, and the scan continues on the remainder. -/
theorem stripFuel_directive (alt url post : List Char) (fuel : Nat)
    (ha : ∀ c ∈ alt, c ≠ ']' ∧ isLineTerminator c = false)
    (hu : ∀ c ∈ url, c ≠ ')' ∧ isLineTerminator c = false) :
    stripFuel (fuel + 1) ('!' :: '[' :: (alt ++ ']' :: '(' :: (url ++ ')' :: post)))
      = stripFuel fuel post := by
  rw [stripFuel, if_pos ⟨rfl, rfl⟩]
  simp only [List.tail_cons]
  rw [imgMatch_clean alt url post ha hu]

/-- Opener-free text is unchanged by `stripImages`. -/
theorem stripImages_clean (s : String) (h : noImgStart s.data = true) :
    stripImages s = s := by
  apply String.ext
  exact stripFuel_noImgStart s.data s.data.length le_rfl h

/-! ## Composition of a text from directives and surrounding segments

A synthesis text containing any number of image directives is written as
alternating opener-free segments and directives; `composeImages` builds the
text and `composeText` is the same text with every directive deleted.  Each
piece is `(segment, alt, url)` contributing
`segment ++ "![" ++ alt ++ "](" ++ url ++ ")"`. -/

/-- Build a text from (segment, alt, url) pieces and a trailing segment. -/
def composeImages : List (String × String × String) → String → String
  | [], tail => tail
  | (seg, alt, url) :: rest, tail =>
      seg ++ "![" ++ alt ++ "](" ++ url ++ ")" ++ composeImages rest tail

/-- The same text with every image directive deleted. -/
def composeText : List (String × String × String) → String → String
  | [], tail => tail
  | (seg, _, _) :: rest, tail => seg ++ composeText rest tail

/-- List-of-characters form of `composeImages`. -/
def composeL : List (List Char × List Char × List Char) → List Char → List Char
  | [], tail => tail
  | (seg, alt, url) :: rest, tail =>
      seg ++ '!' :: '[' :: (alt ++ ']' :: '(' :: (url ++ ')' :: composeL rest tail))

/-- List-of-characters form of `composeText`. -/
def composeStrippedL : List (List Char × List Char × List Char) → List Char → List Char
  | [], tail => tail
  | (seg, _, _) :: rest, tail => seg ++ composeStrippedL rest tail

/-- Character data of `composeImages`. -/
theorem composeImages_data (pieces : List (String × String × String)) (tail : String) :
    (composeImages pieces tail).data
      = composeL (pieces.map (fun p => (p.1.data, p.2.1.data, p.2.2.data))) tail.data := by
  induction pieces with
  | nil => rfl
  | cons p rest ih =>
      obtain ⟨seg, alt, url⟩ := p
      have hbang : ("![" : String).data = ['!', '['] := rfl
      have hmid : ("](" : String).data = [']', '('] := rfl
      have hclose : (")" : String).data = [')'] := rfl
      simp [composeImages, composeL, String.data_append, hbang, hmid, hclose, ih]

/-- Character data of `composeText`. -/
theorem composeText_data (pieces : List (String × String × String)) (tail : String) :
    (composeText pieces tail).data
      = composeStrippedL (pieces.map (fun p => (p.1.data, p.2.1.data, p.2.2.data))) tail.data := by
  induction pieces with
  | nil => rfl
  | cons p rest ih =>
      obtain ⟨seg, alt, url⟩ := p
      simp [composeText, composeStrippedL, String.data_append, ih]

/-- The replace deletes every directive from a composed text and keeps every
segment. -/
theorem stripFuel_composeL (pieces : List (List Char × List Char × List Char)) :
    ∀ fuel tail, (composeL pieces tail).length ≤ fuel →
    (∀ p ∈ pieces, noImgStart p.1 = true ∧
        (∀ c ∈ p.2.1, c ≠ ']' ∧ isLineTerminator c = false) ∧
        (∀ c ∈ p.2.2, c ≠ ')' ∧ isLineTerminator c = false)) →
    noImgStart tail = true →
    stripFuel fuel (composeL pieces tail) = composeStrippedL pieces tail := by
  induction pieces with
  | nil =>
      intro fuel tail hlen _ htail
      exact stripFuel_noImgStart tail fuel hlen htail
  | cons p rest ih =>
      obtain ⟨seg, alt, url⟩ := p
      intro fuel tail hlen hp htail
      obtain ⟨hseg, halt, hurl⟩ := hp (seg, alt, url) (by simp)
      simp only [composeL] at hlen ⊢
      rw [stripFuel_append_noImgStart seg fuel _ hlen hseg (fun _ => by simp)]
      obtain ⟨k, hk⟩ : ∃ k, fuel - seg.length = k + 1 := by
        simp at hlen
        exact ⟨fuel - seg.length - 1, by omega⟩
      have hklen : (composeL rest tail).length ≤ k := by
        simp at hlen
        omega
      rw [hk, stripFuel_directive alt url _ k halt hurl,
          ih k tail hklen (fun q hq => hp q (by simp [hq])) htail]
      simp [composeStrippedL]

/-- Claim C4: the text handed to the markdown renderer is the fixed report
header followed by `markdown_content` — or the pending placeholder when the
record or its content is absent — with every inline image directive removed
whole, the surrounding text otherwise unchanged and no stray brackets left
behind.  The content is any alternation of surrounding segments (which may
contain `!` but no `![` opener) and directives whose bracketed alt text holds
no `]` or LineTerminator and whose parenthesized source holds no `)` or
LineTerminator. -/
theorem C4_synthesis_strip :
    (∀ (pieces : List (String × String × String)) (tail : String),
        (∀ p ∈ pieces, noImgStart p.1.data = true ∧
            (∀ c ∈ p.2.1.data, c ≠ ']' ∧ isLineTerminator c = false) ∧
            (∀ c ∈ p.2.2.data, c ≠ ')' ∧ isLineTerminator c = false)) →
        noImgStart tail.data = true →
        composeImages pieces tail ≠ "" →
        SynthesisView (JsVal.obj [("markdown_content",
            JsVal.str (composeImages pieces tail))])
          = reportHeader ++ composeText pieces tail) ∧
    SynthesisView JsVal.null = reportHeader ++ "*Report generation pending...*" ∧
    SynthesisView (JsVal.obj []) = reportHeader ++ "*Report generation pending...*" := by
  refine ⟨?_, ?_, ?_⟩
  · intro pieces tail hp htail hne
    have hjs : jsOr (JsVal.str (composeImages pieces tail))
        (JsVal.str "*Report generation pending...*") = JsVal.str (composeImages pieces tail) := by
      simp [jsOr, jsTruthy, hne]
    have hsyn : SynthesisView (JsVal.obj [("markdown_content",
        JsVal.str (composeImages pieces tail))])
        = stripImages (reportHeader ++ composeImages pieces tail) := by
      simp [SynthesisView, optMember, objLookup, hjs, jsToString]
    rw [hsyn]
    apply String.ext
    show stripFuel (reportHeader ++ composeImages pieces tail).data.length
        (reportHeader ++ composeImages pieces tail).data
        = (reportHeader ++ composeText pieces tail).data
    rw [String.data_append, String.data_append, composeImages_data, composeText_data]
    have hP : ∀ q ∈ pieces.map (fun p => (p.1.data, p.2.1.data, p.2.2.data)),
        noImgStart q.1 = true ∧
        (∀ c ∈ q.2.1, c ≠ ']' ∧ isLineTerminator c = false) ∧
        (∀ c ∈ q.2.2, c ≠ ')' ∧ isLineTerminator c = false) := by
      intro q hq
      obtain ⟨p, hp2, rfl⟩ := List.mem_map.mp hq
      exact hp p hp2
    rw [stripFuel_append_noImgStart reportHeader.data _ _ le_rfl (by decide)
        (fun hlast => absurd hlast (by decide))]
    have hsub : (reportHeader.data ++
          composeL (pieces.map (fun p => (p.1.data, p.2.1.data, p.2.2.data))) tail.data).length
          - reportHeader.data.length
        = (composeL (pieces.map (fun p => (p.1.data, p.2.1.data, p.2.2.data))) tail.data).length := by
      simp
    rw [hsub]
    rw [stripFuel_composeL (pieces.map (fun p => (p.1.data, p.2.1.data, p.2.2.data)))
        _ tail.data le_rfl hP htail]
  · have h0 : SynthesisView JsVal.null
        = stripImages (reportHeader ++ "*Report generation pending...*") := rfl
    rw [h0]
    exact stripImages_clean _ (by decide)
  · have h0 : SynthesisView (JsVal.obj [])
        = stripImages (reportHeader ++ "*Report generation pending...*") := rfl
    rw [h0]
    exact stripImages_clean _ (by decide)

/-- Witness for C4: two directives embedded in narrative that itself contains
exclamation marks are both removed, the surrounding text intact with no stray
brackets; the absent record gives the placeholder sentence. -/
theorem C4_synthesis_strip_witness :
    SynthesisView (JsVal.obj [("markdown_content", JsVal.str (composeImages
        [("Sales grew! ", "alt", "http://x/y.png"), (" and ", "chart", "img/a.png")]
        " The end."))])
      = reportHeader ++ "Sales grew!  and  The end." ∧
    SynthesisView JsVal.null = reportHeader ++ "*Report generation pending...*" := by
  constructor
  · have h := C4_synthesis_strip.1
      [("Sales grew! ", "alt", "http://x/y.png"), (" and ", "chart", "img/a.png")]
      " The end." (by decide) (by decide) (by decide)
    refine h.trans ?_
    decide
  · exact C4_synthesis_strip.2.1

/-! ## Claim C3: defensive rendering -/

/-- A step item that is neither `null` nor `undefined` always renders
(property access on primitives yields `undefined`, not a throw). -/
theorem pandasBlock_ok_of_notNullish (k : Nat) (item : JsVal)
    (h1 : item ≠ JsVal.null) (h2 : item ≠ JsVal.undef) :
    ∃ b, pandasBlock k item = Except.ok b := by
  cases item
  · exact absurd rfl h1
  · exact absurd rfl h2
  · exact ⟨_, rfl⟩
  · exact ⟨_, rfl⟩
  · exact ⟨_, rfl⟩
  · exact ⟨_, rfl⟩
  · exact ⟨_, pandasBlock_obj k _⟩

/-- Qualitative analogue of `pandasBlock_ok_of_notNullish`. -/
theorem ragBlock_ok_of_notNullish (k : Nat) (item : JsVal)
    (h1 : item ≠ JsVal.null) (h2 : item ≠ JsVal.undef) :
    ∃ c, ragBlock k item = Except.ok c := by
  cases item
  · exact absurd rfl h1
  · exact absurd rfl h2
  · exact ⟨_, rfl⟩
  · exact ⟨_, rfl⟩
  · exact ⟨_, rfl⟩
  · exact ⟨_, rfl⟩
  · exact ⟨_, ragBlock_obj k _⟩

/-- A list of non-nullish step items renders fully. -/
theorem pandasBlocksFrom_ok_of_notNullish (xs : List JsVal)
    (h : ∀ x ∈ xs, x ≠ JsVal.null ∧ x ≠ JsVal.undef) :
    ∀ k, ∃ bs, pandasBlocksFrom k xs = Except.ok bs := by
  induction xs with
  | nil => exact fun k => ⟨[], rfl⟩
  | cons item rest ih =>
      intro k
      obtain ⟨h1, h2⟩ := h item (by simp)
      obtain ⟨b, hb⟩ := pandasBlock_ok_of_notNullish k item h1 h2
      obtain ⟨bs, hbs⟩ := ih (fun x hx => h x (by simp [hx])) (k + 1)
      exact ⟨b :: bs, by rw [pandasBlocksFrom]; simp [hb, hbs]⟩

/-- Qualitative analogue of `pandasBlocksFrom_ok_of_notNullish`. -/
theorem ragBlocksFrom_ok_of_notNullish (xs : List JsVal)
    (h : ∀ x ∈ xs, x ≠ JsVal.null ∧ x ≠ JsVal.undef) :
    ∀ k, ∃ cs, ragBlocksFrom k xs = Except.ok cs := by
  induction xs with
  | nil => exact fun k => ⟨[], rfl⟩
  | cons item rest ih =>
      intro k
      obtain ⟨h1, h2⟩ := h item (by simp)
      obtain ⟨c, hc⟩ := ragBlock_ok_of_notNullish k item h1 h2
      obtain ⟨cs, hcs⟩ := ih (fun x hx => h x (by simp [hx])) (k + 1)
      exact ⟨c :: cs, by rw [ragBlocksFrom]; simp [hc, hcs]⟩

/-- Claim C3 (counterexample): not every malformed subsection degrades to a
placeholder — a non-array `columns` value makes the ingestion view throw, and
a `null` step item makes both step views throw. -/
theorem C3_counterexample :
    IngestionView (JsVal.obj [("columns", JsVal.num 5)])
      = Except.error "TypeError: data.columns.slice is not a function" ∧
    PandasAgentView (JsVal.arr [JsVal.null])
      = Except.error "TypeError: Cannot read properties of null (reading section)" ∧
    RAGAgentView (JsVal.arr [JsVal.null])
      = Except.error "TypeError: Cannot read properties of null (reading section)" := by
  exact ⟨rfl, rfl, rfl⟩

/-- Claim C3 (amended): the renderers degrade to their placeholders without
throwing for absent subsections, wrong-typed or empty step sequences, missing
fields inside non-nullish step items, and nullish/array `columns`; the
synthesis renderer is total (a `String`-valued function here) and shows the
pending placeholder when the record is absent.  Excluded (per the
counterexample): a present non-array `columns` value, and `null`/`undefined`
items inside a step sequence. -/
theorem C3_renderers_amended :
    (IngestionView JsVal.undef = Except.ok
        { status := JsVal.str "Ready", rowCount := JsVal.num 0,
          shownColumns := none, moreIndicator := none } ∧
     IngestionView JsVal.null = Except.ok
        { status := JsVal.str "Ready", rowCount := JsVal.num 0,
          shownColumns := none, moreIndicator := none }) ∧
    (∀ fs, (objLookup fs "columns" = JsVal.undef ∨ objLookup fs "columns" = JsVal.null ∨
            ∃ xs, objLookup fs "columns" = JsVal.arr xs) →
        ∃ out, IngestionView (JsVal.obj fs) = Except.ok out) ∧
    (∀ v, (∀ x xs, v ≠ JsVal.arr (x :: xs)) →
        PandasAgentView v = Except.ok PandasView.placeholder ∧
        RAGAgentView v = Except.ok RagView.placeholder) ∧
    (∀ xs, (∀ x ∈ xs, x ≠ JsVal.null ∧ x ≠ JsVal.undef) →
        (∃ pv, PandasAgentView (JsVal.arr xs) = Except.ok pv) ∧
        (∃ rv, RAGAgentView (JsVal.arr xs) = Except.ok rv)) ∧
    SynthesisView JsVal.undef = reportHeader ++ "*Report generation pending...*" := by
  refine ⟨⟨rfl, rfl⟩, ?_, ?_, ?_, ?_⟩
  · intro fs h
    rcases h with h | h | ⟨xs, h⟩
    · have hout : IngestionView (JsVal.obj fs) = Except.ok
          { status := jsOr (objLookup fs "status") (JsVal.str "Ready"),
            rowCount := rowCountDisplay (JsVal.obj fs),
            shownColumns := none, moreIndicator := moreColumns JsVal.undef } := by
        simp [IngestionView, optMember, h, ingestColumns]
      exact ⟨_, hout⟩
    · have hout : IngestionView (JsVal.obj fs) = Except.ok
          { status := jsOr (objLookup fs "status") (JsVal.str "Ready"),
            rowCount := rowCountDisplay (JsVal.obj fs),
            shownColumns := none, moreIndicator := moreColumns JsVal.null } := by
        simp [IngestionView, optMember, h, ingestColumns]
      exact ⟨_, hout⟩
    · have hout : IngestionView (JsVal.obj fs) = Except.ok
          { status := jsOr (objLookup fs "status") (JsVal.str "Ready"),
            rowCount := rowCountDisplay (JsVal.obj fs),
            shownColumns := some (xs.take 6),
            moreIndicator := moreColumns (JsVal.arr xs) } := by
        simp [IngestionView, optMember, h, ingestColumns]
      exact ⟨_, hout⟩
  · intro v hv
    cases v with
    | arr xs =>
        cases xs with
        | nil => exact ⟨rfl, rfl⟩
        | cons x rest => exact absurd rfl (hv x rest)
    | null => exact ⟨rfl, rfl⟩
    | undef => exact ⟨rfl, rfl⟩
    | bool b => exact ⟨rfl, rfl⟩
    | num n => exact ⟨rfl, rfl⟩
    | str s => exact ⟨rfl, rfl⟩
    | obj fs => exact ⟨rfl, rfl⟩
  · intro xs h
    constructor
    · cases xs with
      | nil => exact ⟨PandasView.placeholder, rfl⟩
      | cons x rest =>
          obtain ⟨bs, hbs⟩ := pandasBlocksFrom_ok_of_notNullish (x :: rest) h 0
          exact ⟨PandasView.steps bs, by rw [PandasAgentView, hbs]; rfl⟩
    · cases xs with
      | nil => exact ⟨RagView.placeholder, rfl⟩
      | cons x rest =>
          obtain ⟨cs, hcs⟩ := ragBlocksFrom_ok_of_notNullish (x :: rest) h 0
          exact ⟨RagView.steps cs, by rw [RAGAgentView, hcs]; rfl⟩
  · have h0 : SynthesisView JsVal.undef
        = stripImages (reportHeader ++ "*Report generation pending...*") := rfl
    rw [h0]
    exact stripImages_clean _ (by decide)

/-- Witness for C3 (amended): concrete tolerated inputs — an array `columns`,
a wrong-typed (string) step sequence, and an object step item missing every
field. -/
theorem C3_renderers_amended_witness :
    (∃ out, IngestionView (JsVal.obj [("columns", JsVal.arr [JsVal.str "a"])])
        = Except.ok out) ∧
    (PandasAgentView (JsVal.str "oops") = Except.ok PandasView.placeholder ∧
     RAGAgentView (JsVal.str "oops") = Except.ok RagView.placeholder) ∧
    (∃ pv, PandasAgentView (JsVal.arr [JsVal.obj []]) = Except.ok pv) := by
  have h := C3_renderers_amended
  refine ⟨h.2.1 [("columns", JsVal.arr [JsVal.str "a"])] (Or.inr (Or.inr ⟨_, rfl⟩)), ?_, ?_⟩
  · exact h.2.2.1 (JsVal.str "oops") (fun x xs hx => by cases hx)
  · exact (h.2.2.2.1 [JsVal.obj []] (by intro x hx; simp at hx; simp [hx])).1
